import Mathlib

/-!
Verification of the battery-optimization simulation engine.

This file embeds, over exact rational arithmetic, the simulators of
`src/models/` (`base_simulator.py`, `threshold_based.py`, `rule_based.py`,
`LP_optimization.py`) and the financial post-processor of
`src/utils/utils.py` (`calculate_profit`), and proves or refutes the
frozen specification claims about them.

Conventions of the embedding:
- Python floats become `ℚ`; the literal `0.25` (exact in binary) becomes `1/4`.
- A pandas `Series` used for PV/load lookups becomes `ℕ → Option ℚ`, keyed by
  the dataframe row index (the Python code looks series up by `ts`, the index
  produced by `iterrows`, and by `day_prices.index`); a `none` result models a
  `KeyError`.
- The mutable simulator state (`self.soc`, `self.results`) becomes an explicit
  `SimState` threaded through the day-simulation functions.  A Python
  exception becomes `Except.error e` where `e` is the state the object holds
  at the moment the exception escapes (Python mutates `self.results` in place
  during the loop, so that state can already contain records).
- The CVXPY solver call becomes an oracle argument `Option LPSol`:
  `some s` models a solve that returned with status `OPTIMAL` and solution
  `s`; `none` models any non-optimal status (the code then raises).
-/

namespace Battery

/-- A timestamp; only the hour field is inspected by the simulators
(`rule_based.py` reads `timestamp.hour`). -/
structure Timestamp where
  day : ℕ
  hour : ℕ
  minute : ℕ
  deriving DecidableEq, Repr, Inhabited

/-- One row of the per-day price dataframe: `idx` is the dataframe index label
(used for PV/load series lookups), `ts` the `timestamp` column value, `price`
the `price_eur_per_mwh` column value. -/
structure Row where
  idx : ℕ
  ts : Timestamp
  price : ℚ
  deriving DecidableEq, Repr, Inhabited

/-- One dispatch record, as appended to `self.results` by every simulator. -/
structure DispatchRecord where
  timestamp : Timestamp
  price : ℚ
  soc : ℚ
  action : String
  charge_mwh : ℚ
  discharge_mwh : ℚ
  from_pv_mwh : ℚ
  from_grid_mwh : ℚ
  to_load_mwh : ℚ
  to_grid_mwh : ℚ
  pv_export_mwh : ℚ
  deriving DecidableEq, Repr, Inhabited

/-- The static parameters stored by `BatterySimulator.__init__` and
`LPBasedSimulator.__init__`. -/
structure Params where
  capacity : ℚ
  max_power : ℚ
  efficiency : ℚ
  degradation_cost : ℚ
  grid_fee : ℚ
  deriving DecidableEq, Repr, Inhabited

/-- The mutable part of a simulator: `self.soc` and `self.results`. -/
structure SimState where
  soc : ℚ
  results : List DispatchRecord
  deriving DecidableEq, Repr, Inhabited

/-- A PV or load series: a partial map from dataframe index labels to values.
`none` models a missing label (Python `KeyError` on `.loc`). -/
abbrev Series := ℕ → Option ℚ

/-- Python `self.pv_series.loc[ts] if self.pv_series is not None else 0.0`:
an absent series yields `0.0`; a present series may fail on a missing key. -/
def seriesLookup : Option Series → ℕ → Option ℚ
  | none, _ => some 0
  | some f, i => f i

/-- The state held by the simulator object after a day-simulation call,
whether it returned normally or raised. -/
def outState : Except SimState SimState → SimState
  | Except.ok s => s
  | Except.error s => s

/-- True when the day-simulation call raised. -/
def isError : Except SimState SimState → Bool
  | Except.ok _ => false
  | Except.error _ => true

/-- The per-step decision taken by a heuristic simulator: which branch of the
`if`/`elif`/`else` in `simulate_day` runs. -/
inductive Decision
  | charge
  | discharge
  | idle
  deriving DecidableEq, Repr

/-- The shared loop body of `ThresholdBasedSimulator.simulate_day`
(threshold_based.py lines 61-104) and
`TimeWindowRuleBasedSimulator.simulate_day` (rule_based.py lines 64-107);
the two files duplicate this code verbatim and differ only in the branch
conditions, which are factored into `Decision`.  Returns the updated local
`soc` and the record appended to `self.results`. -/
def heuristicStep (p : Params) (d : Decision) (soc : ℚ) (ts : Timestamp)
    (price pv load : ℚ) : ℚ × DispatchRecord :=
  match d with
  | Decision.charge =>
      let available_capacity := p.capacity - soc
      let max_charge := min (p.max_power * (1/4)) available_capacity
      let surplus := max (pv - load) 0
      let from_pv := min max_charge surplus
      let from_grid := max_charge - from_pv
      let charge_mwh := from_pv + from_grid
      let soc2 := soc + charge_mwh * p.efficiency
      let pv_used := from_pv + min load pv
      let pv_export_mwh := max (pv - pv_used) 0
      (soc2,
        { timestamp := ts, price := price, soc := soc2, action := "charge",
          charge_mwh := charge_mwh, discharge_mwh := 0,
          from_pv_mwh := from_pv, from_grid_mwh := from_grid,
          to_load_mwh := 0, to_grid_mwh := 0, pv_export_mwh := pv_export_mwh })
  | Decision.discharge =>
      let max_discharge := min (p.max_power * (1/4)) soc
      let to_load := min max_discharge load
      let to_grid := max_discharge - to_load
      let discharge_mwh := to_load + to_grid
      let soc2 := soc - discharge_mwh
      let pv_used := min load pv
      let pv_export_mwh := max (pv - pv_used) 0
      (soc2,
        { timestamp := ts, price := price, soc := soc2, action := "discharge",
          charge_mwh := 0, discharge_mwh := discharge_mwh,
          from_pv_mwh := 0, from_grid_mwh := 0,
          to_load_mwh := to_load, to_grid_mwh := to_grid,
          pv_export_mwh := pv_export_mwh })
  | Decision.idle =>
      let pv_used := min load pv
      let pv_export_mwh := max (pv - pv_used) 0
      (soc,
        { timestamp := ts, price := price, soc := soc, action := "idle",
          charge_mwh := 0, discharge_mwh := 0,
          from_pv_mwh := 0, from_grid_mwh := 0,
          to_load_mwh := 0, to_grid_mwh := 0, pv_export_mwh := pv_export_mwh })

/-- The `for ts, row in day_prices.iterrows()` loop of the heuristic
simulators.  `origSoc` is the value `self.soc` keeps while the loop runs on
the local `soc`; `self.soc = soc` is executed only after a complete day, so a
`KeyError` mid-loop leaves `self.soc` at `origSoc` while `self.results`
already holds the records appended so far (`acc`). -/
def simDayLoop (p : Params) (dec : Timestamp → ℚ → Decision)
    (pvS loadS : Option Series) (origSoc : ℚ) :
    ℚ → List DispatchRecord → List Row → Except SimState SimState
  | soc, acc, [] => Except.ok ⟨soc, acc⟩
  | soc, acc, r :: rest =>
      match seriesLookup pvS r.idx, seriesLookup loadS r.idx with
      | some pv, some load =>
          let step := heuristicStep p (dec r.ts r.price) soc r.ts r.price pv load
          simDayLoop p dec pvS loadS origSoc step.1 (acc ++ [step.2]) rest
      | _, _ => Except.error ⟨origSoc, acc⟩

/-- Insertion of a value into an ascending-sorted list (helper for the
pandas quantile computation). -/
def insertSorted (x : ℚ) : List ℚ → List ℚ
  | [] => [x]
  | y :: ys => if x ≤ y then x :: y :: ys else y :: insertSorted x ys

/-- Ascending insertion sort over rationals. -/
def sortRat (xs : List ℚ) : List ℚ := xs.foldr insertSorted []

/-- Pandas `Series.quantile(q)` with the default linear interpolation:
with sorted values `s` of length `n`, position `h = q*(n-1)`, the result is
`s[⌊h⌋] + (h-⌊h⌋)*(s[⌊h⌋+1] - s[⌊h⌋])`. -/
def quantileLinear (q : ℚ) (xs : List ℚ) : ℚ :=
  let s := sortRat xs
  let n := s.length
  let h : ℚ := q * ((n : ℚ) - 1)
  let i : ℕ := (Rat.floor h).toNat
  let lo := s.getD i 0
  let hi := s.getD (i + 1) lo
  lo + (h - ((Rat.floor h : ℤ) : ℚ)) * (hi - lo)

/-- The branch condition of `ThresholdBasedSimulator.simulate_day`:
charge when `price < buy_threshold`, discharge when `price > sell_threshold`,
else idle (both comparisons strict, as in the source). -/
def thresholdDecide (buyTh sellTh price : ℚ) : Decision :=
  if price < buyTh then Decision.charge
  else if sellTh < price then Decision.discharge
  else Decision.idle

/-- `ThresholdBasedSimulator.simulate_day` (threshold_based.py lines 40-106):
the two thresholds are the day-quantiles of the price column; the loop then
runs `heuristicStep` per row. -/
def thresholdSimDay (p : Params) (buy_threshold sell_threshold : ℚ)
    (pvS loadS : Option Series) (st : SimState) (rows : List Row) :
    Except SimState SimState :=
  let buyTh := quantileLinear buy_threshold (rows.map Row.price)
  let sellTh := quantileLinear sell_threshold (rows.map Row.price)
  simDayLoop p (fun _ price => thresholdDecide buyTh sellTh price)
    pvS loadS st.soc st.soc st.results rows

/-- The branch condition of `TimeWindowRuleBasedSimulator.simulate_day`:
charge when `buy_hours[0] <= timestamp.hour < buy_hours[1]`, discharge when
`sell_hours[0] <= timestamp.hour < sell_hours[1]`, else idle. -/
def ruleDecide (buy_hours sell_hours : ℕ × ℕ) (ts : Timestamp) : Decision :=
  if buy_hours.1 ≤ ts.hour ∧ ts.hour < buy_hours.2 then Decision.charge
  else if sell_hours.1 ≤ ts.hour ∧ ts.hour < sell_hours.2 then Decision.discharge
  else Decision.idle

/-- `TimeWindowRuleBasedSimulator.simulate_day` (rule_based.py lines 42-110). -/
def ruleSimDay (p : Params) (buy_hours sell_hours : ℕ × ℕ)
    (pvS loadS : Option Series) (st : SimState) (rows : List Row) :
    Except SimState SimState :=
  simDayLoop p (fun ts _ => ruleDecide buy_hours sell_hours ts)
    pvS loadS st.soc st.soc st.results rows

/-- `run_simulation` (base_simulator.py lines 63-71 and LP_optimization.py
lines 174-182): iterate `simulate_day` over the calendar-day groups in order;
an exception from any day propagates immediately. -/
def runDays {α : Type} (f : SimState → α → Except SimState SimState) :
    SimState → List α → Except SimState SimState
  | st, [] => Except.ok st
  | st, d :: rest =>
      match f st d with
      | Except.ok st2 => runDays f st2 rest
      | Except.error e => Except.error e

/-- `BatterySimulator.run_simulation` specialized to the threshold strategy;
the day list is the ascending calendar-day grouping of the price dataframe. -/
def thresholdRun (p : Params) (buy_threshold sell_threshold : ℚ)
    (pvS loadS : Option Series) (st : SimState) (days : List (List Row)) :
    Except SimState SimState :=
  runDays (thresholdSimDay p buy_threshold sell_threshold pvS loadS) st days

/-- `BatterySimulator.run_simulation` specialized to the time-window strategy. -/
def ruleRun (p : Params) (buy_hours sell_hours : ℕ × ℕ)
    (pvS loadS : Option Series) (st : SimState) (days : List (List Row)) :
    Except SimState SimState :=
  runDays (ruleSimDay p buy_hours sell_hours pvS loadS) st days

/-- The state built by `BatterySimulator.__init__` and
`LPBasedSimulator.__init__`: `soc = 0.5 * capacity`, `results = []`. -/
def constructState (p : Params) : SimState :=
  { soc := (1/2) * p.capacity, results := [] }

/-- `BatterySimulator.reset` and `LPBasedSimulator.reset` (textually identical
in the two classes): `soc = 0.5 * capacity`, `results = []`; the previous
state is ignored. -/
def resetState (p : Params) (_st : SimState) : SimState :=
  { soc := (1/2) * p.capacity, results := [] }

/-! ### Constructors as written in the source

The claims about construction-time validation need the constructors
themselves: they store every argument unchanged and perform no checks. -/

/-- `BatterySimulator.__init__` (base_simulator.py lines 18-42): stores the
five parameters unchanged, sets `soc = 0.5 * capacity_mwh`, `results = []`.
No validation of any argument is performed. -/
def BatterySimulator.init (capacity_mwh power_mw efficiency
    degradation_cost_per_mwh grid_fee_per_mwh : ℚ) : Params × SimState :=
  ({ capacity := capacity_mwh, max_power := power_mw, efficiency := efficiency,
     degradation_cost := degradation_cost_per_mwh,
     grid_fee := grid_fee_per_mwh },
   { soc := (1/2) * capacity_mwh, results := [] })

/-- The attributes stored by `TimeWindowRuleBasedSimulator.__init__`
(rule_based.py lines 17-40): the base-class attributes plus the PV/load
series and the two hour windows, all stored unchanged. -/
structure TimeWindowRuleBasedSimulator where
  params : Params
  state : SimState
  pv_series : Option Series
  load_series : Option Series
  buy_hours : ℕ × ℕ
  sell_hours : ℕ × ℕ

/-- `TimeWindowRuleBasedSimulator.__init__`: stores the windows and series as
given (no validation), and delegates the rest to `BatterySimulator.__init__`. -/
def TimeWindowRuleBasedSimulator.init (pv_series load_series : Option Series)
    (buy_hours sell_hours : ℕ × ℕ) (capacity_mwh power_mw efficiency
    degradation_cost_per_mwh grid_fee_per_mwh : ℚ) :
    TimeWindowRuleBasedSimulator :=
  let base := BatterySimulator.init capacity_mwh power_mw efficiency
    degradation_cost_per_mwh grid_fee_per_mwh
  { params := base.1, state := base.2, pv_series := pv_series,
    load_series := load_series, buy_hours := buy_hours,
    sell_hours := sell_hours }

/-- The attributes stored by `LPBasedSimulator.__init__`
(LP_optimization.py lines 23-55). -/
structure LPBasedSimulator where
  params : Params
  state : SimState
  pv_series : Option Series
  load_series : Option Series

/-- `LPBasedSimulator.__init__`: stores the five parameters and the two
series unchanged, sets `soc = 0.5 * capacity_mwh`, `results = []`.
No validation of any argument is performed. -/
def LPBasedSimulator.init (capacity_mwh power_mw efficiency
    degradation_cost_per_mwh grid_fee_per_mwh : ℚ)
    (pv_series load_series : Option Series) : LPBasedSimulator :=
  let p : Params :=
    { capacity := capacity_mwh, max_power := power_mw,
      efficiency := efficiency,
      degradation_cost := degradation_cost_per_mwh,
      grid_fee := grid_fee_per_mwh }
  { params := p,
    state := { soc := (1/2) * capacity_mwh, results := [] },
    pv_series := pv_series, load_series := load_series }

/-! ### The linear-programming strategy

`LPBasedSimulator.simulate_day` builds one LP per day.  The embedding keeps
the decision variables as rational lists and states the CVXPY constraint set
and objective exactly as built in LP_optimization.py lines 90-138.  The
solver itself is modeled as an oracle: the code only ever inspects
`problem.status` and the returned variable values. -/

/-- The decision variables of the per-day LP (LP_optimization.py lines
90-97): `export_pv_to_grid`, `charge_from_pv`, `charge_from_grid`,
`discharge` (each of length `n`) and `soc` (length `n+1`). -/
structure LPSol where
  export_pv : List ℚ
  charge_from_pv : List ℚ
  charge_from_grid : List ℚ
  discharge : List ℚ
  soc : List ℚ
  deriving DecidableEq, Repr, Inhabited

/-- The derived expression `charge = charge_from_pv + charge_from_grid`
(LP_optimization.py line 94). -/
def lpCharge (s : LPSol) (t : ℕ) : ℚ :=
  s.charge_from_pv.getD t 0 + s.charge_from_grid.getD t 0

/-- The constraint set of the per-day LP, exactly as assembled in
LP_optimization.py lines 99-130 (with `dt = 0.25`), plus the nonnegativity
declared on the variables (`nonneg=True`) and the variable shapes. -/
def LPFeasible (p : Params) (soc0 : ℚ) (prices pv load : List ℚ)
    (s : LPSol) : Prop :=
  s.export_pv.length = prices.length ∧
  s.charge_from_pv.length = prices.length ∧
  s.charge_from_grid.length = prices.length ∧
  s.discharge.length = prices.length ∧
  s.soc.length = prices.length + 1 ∧
  s.soc.getD 0 0 = soc0 ∧
  ∀ t, t < prices.length →
    0 ≤ s.export_pv.getD t 0 ∧
    0 ≤ s.charge_from_pv.getD t 0 ∧
    0 ≤ s.charge_from_grid.getD t 0 ∧
    0 ≤ s.discharge.getD t 0 ∧
    s.soc.getD (t+1) 0 =
      s.soc.getD t 0 + lpCharge s t * p.efficiency * (1/4)
        - s.discharge.getD t 0 / p.efficiency * (1/4) ∧
    s.charge_from_pv.getD t 0 + s.export_pv.getD t 0
      ≤ max (pv.getD t 0 - load.getD t 0) 0 ∧
    s.charge_from_grid.getD t 0 ≤ p.max_power * (1/4) ∧
    lpCharge s t ≤ p.max_power * (1/4) ∧
    s.discharge.getD t 0 ≤ p.max_power * (1/4) ∧
    0 ≤ s.soc.getD (t+1) 0 ∧
    s.soc.getD (t+1) 0 ≤ p.capacity ∧
    (0 < pv.getD t 0 - load.getD t 0 →
      lpCharge s t ≤ pv.getD t 0 - load.getD t 0) ∧
    (0 < load.getD t 0 → s.discharge.getD t 0 ≤ load.getD t 0)

instance (p : Params) (soc0 : ℚ) (prices pv load : List ℚ) (s : LPSol) :
    Decidable (LPFeasible p soc0 prices pv load s) := by
  unfold LPFeasible
  infer_instance

/-- The LP objective (LP_optimization.py lines 132-137):
`Σ discharge·efficiency·price + export_pv·price
   - charge_from_grid·(price + grid_fee)
   - degradation_cost·(charge + discharge)`. -/
def lpObjective (p : Params) (prices : List ℚ) (s : LPSol) : ℚ :=
  ∑ t ∈ Finset.range prices.length,
    (s.discharge.getD t 0 * p.efficiency * prices.getD t 0
      + s.export_pv.getD t 0 * prices.getD t 0
      - s.charge_from_grid.getD t 0 * (prices.getD t 0 + p.grid_fee)
      - p.degradation_cost * (lpCharge s t + s.discharge.getD t 0))

/-- A solution the solver may return with status `OPTIMAL`: feasible and of
maximal objective value among all feasible solutions. -/
def LPOptimalSol (p : Params) (soc0 : ℚ) (prices pv load : List ℚ)
    (s : LPSol) : Prop :=
  LPFeasible p soc0 prices pv load s ∧
  ∀ s2, LPFeasible p soc0 prices pv load s2 →
    lpObjective p prices s2 ≤ lpObjective p prices s

/-- The records appended after a successful solve (LP_optimization.py lines
146-172): one per step, with `to_load = min(discharge, load)`,
`to_grid = max(discharge - to_load, 0)` and the `1e-5` action threshold. -/
def lpRecords (rows : List Row) (prices pv load : List ℚ) (s : LPSol) :
    List DispatchRecord :=
  (List.range rows.length).map fun i =>
    let d := s.discharge.getD i 0
    let to_load := min d (load.getD i 0)
    let to_grid := max (d - to_load) 0
    let c := lpCharge s i
    { timestamp := (rows.getD i default).ts,
      price := prices.getD i 0,
      soc := s.soc.getD (i+1) 0,
      action := if 1/100000 < c then "charge"
        else if 1/100000 < d then "discharge" else "idle",
      charge_mwh := c,
      discharge_mwh := d,
      from_pv_mwh := s.charge_from_pv.getD i 0,
      from_grid_mwh := s.charge_from_grid.getD i 0,
      to_load_mwh := to_load,
      to_grid_mwh := to_grid,
      pv_export_mwh := s.export_pv.getD i 0 }

/-- `self.pv_series.loc[day_prices.index]` (LP_optimization.py lines 79-88):
a single lookup of all row labels that raises `KeyError` if any label is
missing; an absent series yields zeros. -/
def lookupAll (s : Option Series) (rows : List Row) : Option (List ℚ) :=
  rows.mapM fun r => seriesLookup s r.idx

/-- `LPBasedSimulator.simulate_day` (LP_optimization.py lines 64-172).
The PV/load lookups happen first (a missing label raises before anything
else); then the problem is solved (`sol = none` models a non-`OPTIMAL`
status, on which the code raises `ValueError` before mutating any state);
on success `self.soc` advances to `soc.value[-1]` (the solution vector has
length `n+1`, so this is entry `n`) and the per-step records are appended. -/
def lpSimulateDay (p : Params) (pvS loadS : Option Series) (st : SimState)
    (rows : List Row) (sol : Option LPSol) : Except SimState SimState :=
  let prices := rows.map Row.price
  match lookupAll pvS rows, lookupAll loadS rows with
  | some pv, some load =>
      match sol with
      | none => Except.error st
      | some s =>
          Except.ok ⟨s.soc.getD rows.length 0,
            st.results ++ lpRecords rows prices pv load s⟩
  | _, _ => Except.error st

/-- `LPBasedSimulator.run_simulation` (LP_optimization.py lines 174-182),
with one solver outcome per day group. -/
def lpRun (p : Params) (pvS loadS : Option Series) (st : SimState)
    (days : List (List Row × Option LPSol)) : Except SimState SimState :=
  runDays (fun st2 d => lpSimulateDay p pvS loadS st2 d.1 d.2) st days

/-! ### The financial post-processor

`calculate_profit` (utils.py lines 68-114) receives the dispatch dataframe,
adds the derived financial columns to it in place, and returns the same
frame.  The frame is modeled as the base rows plus an optional block of
derived columns; the in-place mutation becomes a state-passing update. -/

/-- The derived columns added by `calculate_profit`. -/
structure FinCols where
  revenue_battery : List ℚ
  revenue_pv_export : List ℚ
  revenue : List ℚ
  cost : List ℚ
  degradation : List ℚ
  interval_profit : List ℚ
  cumulative_profit : List ℚ
  cumulative_degradation : List ℚ
  cumulative_grid_cost : List ℚ
  cumulative_pv_revenue : List ℚ
  deriving DecidableEq, Repr, Inhabited

/-- A dataframe of dispatch records: the columns written by the simulators,
plus the derived financial columns once `calculate_profit` has added them. -/
structure DataFrame where
  rows : List DispatchRecord
  fin : Option FinCols
  deriving DecidableEq, Repr, Inhabited

/-- The derived-column block of a dataframe (empty before
`calculate_profit` ran). -/
def finColsOf (df : DataFrame) : FinCols := df.fin.getD default

/-- Running prefix sums, as produced by pandas `cumsum`:
entry `k` is the sum of entries `0..k` of the input. -/
def cumsumFrom (a : ℚ) : List ℚ → List ℚ
  | [] => []
  | x :: xs => (a + x) :: cumsumFrom (a + x) xs

/-- Pandas `Series.cumsum`. -/
def cumsum (xs : List ℚ) : List ℚ := cumsumFrom 0 xs

/-- The per-row interval profit before the one-time deduction
(utils.py lines 84-102): `revenue - cost - degradation` with
`revenue = discharge·efficiency·price + pv_export·price`,
`cost = from_grid·(price + grid_fee)`,
`degradation = degradation_cost·(charge + discharge)`. -/
def rawIntervalProfit (efficiency grid_fee_per_mwh degradation_cost_per_mwh : ℚ)
    (r : DispatchRecord) : ℚ :=
  (r.discharge_mwh * efficiency * r.price + r.pv_export_mwh * r.price)
    - r.from_grid_mwh * (r.price + grid_fee_per_mwh)
    - degradation_cost_per_mwh * (r.charge_mwh + r.discharge_mwh)

/-- `if pv_setup_cost_eur > 0: df.at[0, "interval_profit"] -= pv_setup_cost_eur`
(utils.py lines 104-106): the deduction hits row 0 only.  (On an empty frame
the Python line would raise; the theorems about it assume a nonempty frame.) -/
def adjustFirst (setup : ℚ) : List ℚ → List ℚ
  | [] => []
  | x :: xs => if 0 < setup then (x - setup) :: xs else x :: xs

/-- The derived columns computed by `calculate_profit` from the base rows. -/
def computeFinCols (efficiency grid_fee_per_mwh degradation_cost_per_mwh
    pv_setup_cost_eur : ℚ) (rows : List DispatchRecord) : FinCols :=
  let rb := rows.map fun r => r.discharge_mwh * efficiency * r.price
  let rpv := rows.map fun r => r.pv_export_mwh * r.price
  let rev := rows.map fun r =>
    r.discharge_mwh * efficiency * r.price + r.pv_export_mwh * r.price
  let cost := rows.map fun r => r.from_grid_mwh * (r.price + grid_fee_per_mwh)
  let degr := rows.map fun r =>
    degradation_cost_per_mwh * (r.charge_mwh + r.discharge_mwh)
  let ip := adjustFirst pv_setup_cost_eur
    (rows.map (rawIntervalProfit efficiency grid_fee_per_mwh
      degradation_cost_per_mwh))
  { revenue_battery := rb, revenue_pv_export := rpv, revenue := rev,
    cost := cost, degradation := degr, interval_profit := ip,
    cumulative_profit := cumsum ip,
    cumulative_degradation := cumsum degr,
    cumulative_grid_cost := cumsum cost,
    cumulative_pv_revenue := cumsum rpv }

/-- `calculate_profit` (utils.py lines 68-114).  In the source the function
assigns the derived columns into the argument frame (`df[...] = ...`,
`df.at[0, ...] -= ...`) and returns that same frame; under state passing the
caller's frame after the call is exactly the returned value. -/
def calculate_profit (efficiency grid_fee_per_mwh degradation_cost_per_mwh
    pv_setup_cost_eur : ℚ) (df : DataFrame) : DataFrame :=
  { rows := df.rows,
    fin := some (computeFinCols efficiency grid_fee_per_mwh
      degradation_cost_per_mwh pv_setup_cost_eur df.rows) }

/-! ### Helper lemmas -/

lemma getD_map_lt {α β : Type} [Inhabited α] (f : α → β) (d : β) :
    ∀ (l : List α) (i : ℕ), i < l.length →
      (l.map f).getD i d = f (l.getD i default)
  | _ :: _, 0, _ => rfl
  | _ :: t, i + 1, h =>
      getD_map_lt f d t i (by simpa using Nat.lt_of_succ_lt_succ h)

lemma cumsumFrom_getD (xs : List ℚ) :
    ∀ (a : ℚ) (k : ℕ), k < xs.length →
      (cumsumFrom a xs).getD k 0
        = a + ∑ i ∈ Finset.range (k + 1), xs.getD i 0 := by
  induction xs with
  | nil => intro a k h; simp at h
  | cons x t ih =>
      intro a k h
      cases k with
      | zero => simp [cumsumFrom]
      | succ k =>
          have hk : k < t.length := by simpa using Nat.lt_of_succ_lt_succ h
          have h2 := ih (a + x) k hk
          have h3 : ∑ i ∈ Finset.range (k + 2), (x :: t).getD i 0
              = (∑ i ∈ Finset.range (k + 1), (x :: t).getD (i + 1) 0) + x := by
            simpa using Finset.sum_range_succ' (fun i => (x :: t).getD i 0) (k + 1)
          have h4 : ∀ i, (x :: t).getD (i + 1) 0 = t.getD i 0 := fun i => rfl
          calc (cumsumFrom a (x :: t)).getD (k + 1) 0
              = (cumsumFrom (a + x) t).getD k 0 := rfl
            _ = (a + x) + ∑ i ∈ Finset.range (k + 1), t.getD i 0 := h2
            _ = a + ∑ i ∈ Finset.range (k + 2), (x :: t).getD i 0 := by
                rw [h3]; simp only [h4]; ring

lemma cumsum_getD (xs : List ℚ) (k : ℕ) (h : k < xs.length) :
    (cumsum xs).getD k 0 = ∑ i ∈ Finset.range (k + 1), xs.getD i 0 := by
  simpa [cumsum] using cumsumFrom_getD xs 0 k h

lemma adjustFirst_getD_zero (setup : ℚ) (xs : List ℚ) (h : 0 < xs.length) :
    (adjustFirst setup xs).getD 0 0
      = xs.getD 0 0 - (if 0 < setup then setup else 0) := by
  cases xs with
  | nil => simp at h
  | cons x t =>
      by_cases hs : 0 < setup <;> simp [adjustFirst, hs]

lemma adjustFirst_getD_pos (setup : ℚ) (xs : List ℚ) (i : ℕ) (h : 0 < i) :
    (adjustFirst setup xs).getD i 0 = xs.getD i 0 := by
  cases xs with
  | nil => simp [adjustFirst]
  | cons x t =>
      cases i with
      | zero => simp at h
      | succ i => by_cases hs : 0 < setup <;> simp [adjustFirst, hs]

lemma adjustFirst_length (setup : ℚ) (xs : List ℚ) :
    (adjustFirst setup xs).length = xs.length := by
  cases xs with
  | nil => rfl
  | cons x t => by_cases hs : 0 < setup <;> simp [adjustFirst, hs]

/-- The record returned by a heuristic step carries the step's updated soc. -/
lemma heuristicStep_rec_soc (p : Params) (d : Decision) (soc : ℚ)
    (ts : Timestamp) (price pv load : ℚ) :
    ((heuristicStep p d soc ts price pv load).2).soc
      = (heuristicStep p d soc ts price pv load).1 := by
  cases d <;> rfl

/-- Each heuristic branch keeps the updated soc inside `[0, capacity]`:
charging adds `min(maxPower·Δt, capacity - soc)·efficiency`, discharging
removes `min(maxPower·Δt, soc)`. -/
lemma heuristicStep_soc_bounds (p : Params) (d : Decision) (soc : ℚ)
    (ts : Timestamp) (price pv load : ℚ)
    (he0 : 0 < p.efficiency) (he1 : p.efficiency ≤ 1)
    (hP : 0 ≤ p.max_power) (h0 : 0 ≤ soc) (h1 : soc ≤ p.capacity) :
    0 ≤ (heuristicStep p d soc ts price pv load).1
      ∧ (heuristicStep p d soc ts price pv load).1 ≤ p.capacity := by
  cases d with
  | charge =>
      dsimp only [heuristicStep]
      set A := min (p.max_power * (1/4)) (p.capacity - soc) with hA
      set S := max (pv - load) 0 with hS
      set F := min A S with hF
      have h2 : F + (A - F) = A := by ring
      rw [h2]
      have hA0 : 0 ≤ A :=
        le_min (mul_nonneg hP (by norm_num)) (by linarith)
      have hA1 : A ≤ p.capacity - soc := min_le_right _ _
      have hAe : A * p.efficiency ≤ A := mul_le_of_le_one_right hA0 he1
      have hAe0 : 0 ≤ A * p.efficiency := mul_nonneg hA0 he0.le
      exact ⟨by linarith, by linarith⟩
  | discharge =>
      dsimp only [heuristicStep]
      set M := min (p.max_power * (1/4)) soc with hM
      set L := min M load with hL
      have h2 : L + (M - L) = M := by ring
      rw [h2]
      have hM0 : 0 ≤ M := le_min (mul_nonneg hP (by norm_num)) h0
      have hM1 : M ≤ soc := min_le_right _ _
      exact ⟨by linarith, by linarith⟩
  | idle => exact ⟨h0, h1⟩

/-- Each heuristic step is exclusive (at most one of charge/discharge is
nonzero) and respects the power bound `maxPower·Δt` on both. -/
lemma heuristicStep_excl_bounds (p : Params) (d : Decision) (soc : ℚ)
    (ts : Timestamp) (price pv load : ℚ) (hP : 0 ≤ p.max_power) :
    (((heuristicStep p d soc ts price pv load).2).charge_mwh = 0
        ∨ ((heuristicStep p d soc ts price pv load).2).discharge_mwh = 0)
      ∧ ((heuristicStep p d soc ts price pv load).2).charge_mwh
          ≤ p.max_power * (1/4)
      ∧ ((heuristicStep p d soc ts price pv load).2).discharge_mwh
          ≤ p.max_power * (1/4) := by
  have hP4 : (0:ℚ) ≤ p.max_power * (1/4) := mul_nonneg hP (by norm_num)
  cases d with
  | charge =>
      dsimp only [heuristicStep]
      set A := min (p.max_power * (1/4)) (p.capacity - soc) with hA
      set S := max (pv - load) 0 with hS
      set F := min A S with hF
      have h2 : F + (A - F) = A := by ring
      rw [h2]
      exact ⟨Or.inr rfl, min_le_left _ _, hP4⟩
  | discharge =>
      dsimp only [heuristicStep]
      set M := min (p.max_power * (1/4)) soc with hM
      set L := min M load with hL
      have h2 : L + (M - L) = M := by ring
      rw [h2]
      exact ⟨Or.inl rfl, hP4, min_le_left _ _⟩
  | idle => exact ⟨Or.inl rfl, hP4, hP4⟩

/-- Each heuristic step's record decomposes its flows:
`from_pv + from_grid = charge` and `to_load + to_grid = discharge`. -/
lemma heuristicStep_decomp (p : Params) (d : Decision) (soc : ℚ)
    (ts : Timestamp) (price pv load : ℚ) :
    ((heuristicStep p d soc ts price pv load).2).from_pv_mwh
        + ((heuristicStep p d soc ts price pv load).2).from_grid_mwh
      = ((heuristicStep p d soc ts price pv load).2).charge_mwh
    ∧ ((heuristicStep p d soc ts price pv load).2).to_load_mwh
        + ((heuristicStep p d soc ts price pv load).2).to_grid_mwh
      = ((heuristicStep p d soc ts price pv load).2).discharge_mwh := by
  cases d <;> dsimp only [heuristicStep] <;> exact ⟨by ring, by ring⟩

/-- Any per-record property established by every heuristic step and holding
of the accumulated records holds of all records after the day loop, whether
the loop completed or raised mid-day. -/
lemma simDayLoop_Q (p : Params) (dec : Timestamp → ℚ → Decision)
    (pvS loadS : Option Series) (origSoc : ℚ) (Q : DispatchRecord → Prop)
    (hstep : ∀ d soc ts price pv load,
      Q ((heuristicStep p d soc ts price pv load).2)) :
    ∀ (rows : List Row) (soc : ℚ) (acc : List DispatchRecord),
      (∀ r ∈ acc, Q r) →
      ∀ r ∈ (outState (simDayLoop p dec pvS loadS origSoc soc acc rows)).results,
        Q r := by
  intro rows
  induction rows with
  | nil => intro soc acc hacc; simpa [simDayLoop, outState] using hacc
  | cons row rest ih =>
      intro soc acc hacc
      rcases h1 : seriesLookup pvS row.idx with _ | pv
      · simpa [simDayLoop, h1, outState] using hacc
      · rcases h2 : seriesLookup loadS row.idx with _ | load
        · simpa [simDayLoop, h1, h2, outState] using hacc
        · have hacc2 : ∀ r ∈ acc ++
              [(heuristicStep p (dec row.ts row.price) soc row.ts row.price
                pv load).2], Q r := by
            intro r hr
            rcases List.mem_append.mp hr with hr | hr
            · exact hacc r hr
            · rcases List.mem_singleton.mp hr with rfl
              exact hstep _ _ _ _ _ _
          simpa [simDayLoop, h1, h2] using ih _ _ hacc2

/-- The soc invariant `0 ≤ soc ≤ capacity` is preserved by the heuristic
day loop (for records and for the final state), given valid parameters. -/
lemma simDayLoop_soc (p : Params) (dec : Timestamp → ℚ → Decision)
    (pvS loadS : Option Series) (origSoc : ℚ)
    (he0 : 0 < p.efficiency) (he1 : p.efficiency ≤ 1)
    (hP : 0 ≤ p.max_power) :
    ∀ (rows : List Row) (soc : ℚ) (acc : List DispatchRecord),
      0 ≤ soc → soc ≤ p.capacity →
      (∀ r ∈ acc, 0 ≤ r.soc ∧ r.soc ≤ p.capacity) →
      (∀ r ∈ (outState
          (simDayLoop p dec pvS loadS origSoc soc acc rows)).results,
        0 ≤ r.soc ∧ r.soc ≤ p.capacity) ∧
      (∀ st2, simDayLoop p dec pvS loadS origSoc soc acc rows
          = Except.ok st2 → 0 ≤ st2.soc ∧ st2.soc ≤ p.capacity) := by
  intro rows
  induction rows with
  | nil =>
      intro soc acc h0 h1 hacc
      constructor
      · simpa [simDayLoop, outState] using hacc
      · intro st2 hok
        simp only [simDayLoop] at hok
        cases hok
        exact ⟨h0, h1⟩
  | cons row rest ih =>
      intro soc acc h0 h1 hacc
      rcases h1l : seriesLookup pvS row.idx with _ | pv
      · constructor
        · simpa [simDayLoop, h1l, outState] using hacc
        · intro st2 hok; simp [simDayLoop, h1l] at hok
      · rcases h2l : seriesLookup loadS row.idx with _ | load
        · constructor
          · simpa [simDayLoop, h1l, h2l, outState] using hacc
          · intro st2 hok; simp [simDayLoop, h1l, h2l] at hok
        · have hb := heuristicStep_soc_bounds p (dec row.ts row.price) soc
            row.ts row.price pv load he0 he1 hP h0 h1
          have hacc2 : ∀ r ∈ acc ++
              [(heuristicStep p (dec row.ts row.price) soc row.ts row.price
                pv load).2], 0 ≤ r.soc ∧ r.soc ≤ p.capacity := by
            intro r hr
            rcases List.mem_append.mp hr with hr | hr
            · exact hacc r hr
            · rcases List.mem_singleton.mp hr with rfl
              rw [heuristicStep_rec_soc]
              exact hb
          have hrec := ih _ _ hb.1 hb.2 hacc2
          constructor
          · simpa [simDayLoop, h1l, h2l] using hrec.1
          · intro st2 hok
            apply hrec.2
            simpa [simDayLoop, h1l, h2l] using hok

/-- When the heuristic day loop raises, the resulting state keeps the
original soc and its record list extends the incoming one. -/
lemma simDayLoop_error (p : Params) (dec : Timestamp → ℚ → Decision)
    (pvS loadS : Option Series) (origSoc : ℚ) :
    ∀ (rows : List Row) (soc : ℚ) (acc : List DispatchRecord) (e : SimState),
      simDayLoop p dec pvS loadS origSoc soc acc rows = Except.error e →
      e.soc = origSoc ∧ ∃ l, e.results = acc ++ l := by
  intro rows
  induction rows with
  | nil => intro soc acc e he; simp [simDayLoop] at he
  | cons row rest ih =>
      intro soc acc e he
      rcases h1l : seriesLookup pvS row.idx with _ | pv
      · simp [simDayLoop, h1l] at he
        rcases he with rfl
        exact ⟨rfl, [], by simp⟩
      · rcases h2l : seriesLookup loadS row.idx with _ | load
        · simp [simDayLoop, h1l, h2l] at he
          rcases he with rfl
          exact ⟨rfl, [], by simp⟩
        · simp only [simDayLoop, h1l, h2l] at he
          rcases ih _ _ _ he with ⟨hsoc, l, hl⟩
          rw [List.append_assoc] at hl
          exact ⟨hsoc, _, hl⟩

/-- Record properties preserved by every day-call are preserved by the
multi-day driver. -/
lemma runDays_Q {α : Type} (f : SimState → α → Except SimState SimState)
    (Q : DispatchRecord → Prop)
    (hf : ∀ st d, (∀ r ∈ st.results, Q r) →
      ∀ r ∈ (outState (f st d)).results, Q r) :
    ∀ (days : List α) (st : SimState),
      (∀ r ∈ st.results, Q r) →
      ∀ r ∈ (outState (runDays f st days)).results, Q r := by
  intro days
  induction days with
  | nil => intro st hacc; simpa [runDays, outState] using hacc
  | cons d rest ih =>
      intro st hacc
      rcases h : f st d with e | st2
      · have h2 := hf st d hacc
        simpa [runDays, h, outState] using h2
      · have h2 : ∀ r ∈ st2.results, Q r := by
          have := hf st d hacc
          simpa [h, outState] using this
        simpa [runDays, h] using ih st2 h2

/-- The soc record invariant is preserved by the multi-day driver, given a
day-call that preserves it and keeps the final soc within bounds. -/
lemma runDays_soc {α : Type} (p : Params)
    (f : SimState → α → Except SimState SimState)
    (hf : ∀ st d, 0 ≤ st.soc → st.soc ≤ p.capacity →
      (∀ r ∈ st.results, 0 ≤ r.soc ∧ r.soc ≤ p.capacity) →
      (∀ r ∈ (outState (f st d)).results, 0 ≤ r.soc ∧ r.soc ≤ p.capacity) ∧
      (∀ st2, f st d = Except.ok st2 → 0 ≤ st2.soc ∧ st2.soc ≤ p.capacity)) :
    ∀ (days : List α) (st : SimState),
      0 ≤ st.soc → st.soc ≤ p.capacity →
      (∀ r ∈ st.results, 0 ≤ r.soc ∧ r.soc ≤ p.capacity) →
      ∀ r ∈ (outState (runDays f st days)).results,
        0 ≤ r.soc ∧ r.soc ≤ p.capacity := by
  intro days
  induction days with
  | nil => intro st h0 h1 hacc; simpa [runDays, outState] using hacc
  | cons d rest ih =>
      intro st h0 h1 hacc
      rcases h : f st d with e | st2
      · have hd := (hf st d h0 h1 hacc).1
        simpa [runDays, h, outState] using hd
      · have hd := hf st d h0 h1 hacc
        have hrecs : ∀ r ∈ st2.results, 0 ≤ r.soc ∧ r.soc ≤ p.capacity := by
          have := hd.1; simpa [h, outState] using this
        have hsoc := hd.2 st2 h
        simpa [runDays, h] using ih st2 hsoc.1 hsoc.2 hrecs

/-- `thresholdSimDay` is the generic day loop run with the quantile decision
rule. -/
lemma thresholdSimDay_eq (p : Params) (bq sq : ℚ) (pvS loadS : Option Series)
    (st : SimState) (rows : List Row) :
    thresholdSimDay p bq sq pvS loadS st rows
      = simDayLoop p (fun _ price => thresholdDecide
          (quantileLinear bq (rows.map Row.price))
          (quantileLinear sq (rows.map Row.price)) price)
        pvS loadS st.soc st.soc st.results rows := rfl

/-- `ruleSimDay` is the generic day loop run with the time-window decision
rule. -/
lemma ruleSimDay_eq (p : Params) (bw sw : ℕ × ℕ) (pvS loadS : Option Series)
    (st : SimState) (rows : List Row) :
    ruleSimDay p bw sw pvS loadS st rows
      = simDayLoop p (fun ts _ => ruleDecide bw sw ts)
        pvS loadS st.soc st.soc st.results rows := rfl

/-- Field values of any record emitted by the LP post-solve loop, in terms of
the solution vectors at its step index. -/
lemma lpRecords_mem {rows : List Row} {prices pv load : List ℚ} {s : LPSol}
    {r : DispatchRecord} (hr : r ∈ lpRecords rows prices pv load s) :
    ∃ i, i < rows.length ∧
      r.soc = s.soc.getD (i+1) 0 ∧
      r.charge_mwh = lpCharge s i ∧
      r.discharge_mwh = s.discharge.getD i 0 ∧
      r.from_pv_mwh = s.charge_from_pv.getD i 0 ∧
      r.from_grid_mwh = s.charge_from_grid.getD i 0 ∧
      r.to_load_mwh = min (s.discharge.getD i 0) (load.getD i 0) ∧
      r.to_grid_mwh = max (s.discharge.getD i 0
        - min (s.discharge.getD i 0) (load.getD i 0)) 0 := by
  simp only [lpRecords, List.mem_map, List.mem_range] at hr
  obtain ⟨i, hi, rfl⟩ := hr
  exact ⟨i, hi, rfl, rfl, rfl, rfl, rfl, rfl, rfl⟩

/-- Every record emitted after a feasible solve has its soc within
`[0, capacity]`: the LP constrains `0 ≤ soc[t+1] ≤ capacity` and the record
at step `i` reports `soc[i+1]`. -/
lemma lpRecords_soc (p : Params) (soc0 : ℚ) (rows : List Row)
    (pv load : List ℚ) (s : LPSol)
    (hfeas : LPFeasible p soc0 (rows.map Row.price) pv load s) :
    ∀ r ∈ lpRecords rows (rows.map Row.price) pv load s,
      0 ≤ r.soc ∧ r.soc ≤ p.capacity := by
  intro r hr
  obtain ⟨i, hi, hsoc, -, -, -, -, -, -⟩ := lpRecords_mem hr
  obtain ⟨-, -, -, -, -, -, hall⟩ := hfeas
  have hi2 : i < (rows.map Row.price).length := by simpa using hi
  obtain ⟨-, -, -, -, -, -, -, -, -, hs0, hs1, -, -⟩ := hall i hi2
  rw [hsoc]
  exact ⟨hs0, hs1⟩

/-- Every record emitted after a feasible solve respects the power bounds:
the LP constrains `charge[t] ≤ maxPower·Δt` and `discharge[t] ≤ maxPower·Δt`. -/
lemma lpRecords_power (p : Params) (soc0 : ℚ) (rows : List Row)
    (pv load : List ℚ) (s : LPSol)
    (hfeas : LPFeasible p soc0 (rows.map Row.price) pv load s) :
    ∀ r ∈ lpRecords rows (rows.map Row.price) pv load s,
      r.charge_mwh ≤ p.max_power * (1/4)
        ∧ r.discharge_mwh ≤ p.max_power * (1/4) := by
  intro r hr
  obtain ⟨i, hi, -, hch, hdis, -, -, -, -⟩ := lpRecords_mem hr
  obtain ⟨-, -, -, -, -, -, hall⟩ := hfeas
  have hi2 : i < (rows.map Row.price).length := by simpa using hi
  obtain ⟨-, -, -, -, -, -, -, hcb, hdb, -, -, -, -⟩ := hall i hi2
  rw [hch, hdis]
  exact ⟨hcb, hdb⟩

/-- Every record emitted by the LP post-solve loop decomposes its flows:
`charge` is defined as `charge_from_pv + charge_from_grid`, and
`to_load + to_grid = min(d, load) + max(d - min(d, load), 0) = d`. -/
lemma lpRecords_decomp (rows : List Row) (prices pv load : List ℚ)
    (s : LPSol) :
    ∀ r ∈ lpRecords rows prices pv load s,
      r.from_pv_mwh + r.from_grid_mwh = r.charge_mwh
        ∧ r.to_load_mwh + r.to_grid_mwh = r.discharge_mwh := by
  intro r hr
  obtain ⟨i, -, -, hch, hdis, hfpv, hfg, htl, htg⟩ := lpRecords_mem hr
  constructor
  · rw [hch, hfpv, hfg]; rfl
  · rw [hdis, htl, htg]
    have h1 : min (s.discharge.getD i 0) (load.getD i 0)
        ≤ s.discharge.getD i 0 := min_le_left _ _
    have h2 : max (s.discharge.getD i 0
        - min (s.discharge.getD i 0) (load.getD i 0)) 0
        = s.discharge.getD i 0
          - min (s.discharge.getD i 0) (load.getD i 0) :=
      max_eq_left (by linarith)
    rw [h2]
    ring

/-! ### Claim theorems -/

/-- C1: for every record sequence and parameter set, the `cumulative_profit`
column produced by `calculate_profit` is, at every index `k`, the prefix sum
of `interval_profit` over `0..k`; the `interval_profit` column is the per-row
profit formula with a positive `pv_setup_cost_eur` subtracted from index 0
only, before the prefix sums are taken. -/
theorem claim_C1_cumulative_profit_prefix_sum
    (efficiency grid_fee_per_mwh degradation_cost_per_mwh
      pv_setup_cost_eur : ℚ) (df : DataFrame) (k : ℕ)
    (hk : k < df.rows.length) :
    (finColsOf (calculate_profit efficiency grid_fee_per_mwh
        degradation_cost_per_mwh pv_setup_cost_eur df)).cumulative_profit.getD
        k 0
      = ∑ i ∈ Finset.range (k + 1),
          (finColsOf (calculate_profit efficiency grid_fee_per_mwh
            degradation_cost_per_mwh pv_setup_cost_eur
            df)).interval_profit.getD i 0
    ∧ (finColsOf (calculate_profit efficiency grid_fee_per_mwh
        degradation_cost_per_mwh pv_setup_cost_eur df)).interval_profit.getD
        0 0
      = rawIntervalProfit efficiency grid_fee_per_mwh degradation_cost_per_mwh
          (df.rows.getD 0 default)
        - (if 0 < pv_setup_cost_eur then pv_setup_cost_eur else 0)
    ∧ ∀ i, 0 < i → i < df.rows.length →
        (finColsOf (calculate_profit efficiency grid_fee_per_mwh
          degradation_cost_per_mwh pv_setup_cost_eur df)).interval_profit.getD
          i 0
        = rawIntervalProfit efficiency grid_fee_per_mwh
            degradation_cost_per_mwh (df.rows.getD i default) := by
  have hfin : finColsOf (calculate_profit efficiency grid_fee_per_mwh
      degradation_cost_per_mwh pv_setup_cost_eur df)
      = computeFinCols efficiency grid_fee_per_mwh degradation_cost_per_mwh
        pv_setup_cost_eur df.rows := rfl
  rw [hfin]
  have hlen0 : 0 < df.rows.length := Nat.lt_of_le_of_lt (Nat.zero_le k) hk
  have hmaplen : (df.rows.map (rawIntervalProfit efficiency grid_fee_per_mwh
      degradation_cost_per_mwh)).length = df.rows.length := List.length_map _ _
  have hiplen : (adjustFirst pv_setup_cost_eur
      (df.rows.map (rawIntervalProfit efficiency grid_fee_per_mwh
        degradation_cost_per_mwh))).length = df.rows.length := by
    rw [adjustFirst_length, hmaplen]
  refine ⟨?_, ?_, ?_⟩
  · exact cumsum_getD _ k (by rw [hiplen]; exact hk)
  · rw [show (computeFinCols efficiency grid_fee_per_mwh
        degradation_cost_per_mwh pv_setup_cost_eur df.rows).interval_profit
        = adjustFirst pv_setup_cost_eur (df.rows.map
          (rawIntervalProfit efficiency grid_fee_per_mwh
            degradation_cost_per_mwh)) from rfl]
    rw [adjustFirst_getD_zero _ _ (by rw [hmaplen]; exact hlen0)]
    rw [getD_map_lt _ _ _ _ hlen0]
  · intro i hi0 hilen
    rw [show (computeFinCols efficiency grid_fee_per_mwh
        degradation_cost_per_mwh pv_setup_cost_eur df.rows).interval_profit
        = adjustFirst pv_setup_cost_eur (df.rows.map
          (rawIntervalProfit efficiency grid_fee_per_mwh
            degradation_cost_per_mwh)) from rfl]
    rw [adjustFirst_getD_pos _ _ _ hi0, getD_map_lt _ _ _ _ hilen]

/-- A concrete dispatch record for exercising the post-processor. -/
def recExample : DispatchRecord :=
  { timestamp := { day := 0, hour := 12, minute := 0 },
    price := 50, soc := 1/2, action := "discharge", charge_mwh := 0,
    discharge_mwh := 1/8, from_pv_mwh := 0, from_grid_mwh := 0,
    to_load_mwh := 0, to_grid_mwh := 1/8, pv_export_mwh := 0 }

/-- A concrete one-row dataframe for exercising the post-processor. -/
def dfExample : DataFrame :=
  { rows := [recExample], fin := none }

/-- Witness for C1 at a concrete one-row frame with a positive setup cost. -/
theorem claim_C1_witness :
    0 < dfExample.rows.length
    ∧ ((finColsOf (calculate_profit (9/10) 40 10 7 dfExample)).cumulative_profit.getD
          0 0
        = ∑ i ∈ Finset.range (0 + 1),
            (finColsOf (calculate_profit (9/10) 40 10
              7 dfExample)).interval_profit.getD i 0
      ∧ (finColsOf (calculate_profit (9/10) 40 10 7 dfExample)).interval_profit.getD
          0 0
        = rawIntervalProfit (9/10) 40 10 (dfExample.rows.getD 0 default)
          - (if 0 < (7:ℚ) then 7 else 0)
      ∧ ∀ i, 0 < i → i < dfExample.rows.length →
          (finColsOf (calculate_profit (9/10) 40 10
            7 dfExample)).interval_profit.getD i 0
          = rawIntervalProfit (9/10) 40 10 (dfExample.rows.getD i default)) :=
  ⟨by norm_num [dfExample],
   claim_C1_cumulative_profit_prefix_sum (9/10) 40 10 7 dfExample 0
     (by norm_num [dfExample])⟩

/-- C4 is false as stated: the constructors perform no validation and raise
no configuration error.  Constructing with `efficiency = 2 > 1`, with
`capacity = -1 ≤ 0`, or with the malformed hour window `(25, 3)` succeeds,
and the invalid value is stored unchanged (it is not clamped either). -/
theorem claim_C4_counterexample :
    (BatterySimulator.init 1 1 2 0 0).1.efficiency = 2
    ∧ (BatterySimulator.init (-1) 1 (1/2) 0 0).1.capacity = -1
    ∧ (LPBasedSimulator.init 1 1 2 0 0 none none).params.efficiency = 2
    ∧ (TimeWindowRuleBasedSimulator.init none none (25, 3) (30, 2)
        1 1 2 0 0).buy_hours = (25, 3) :=
  ⟨rfl, rfl, rfl, rfl⟩

/-- C4 amended: construction never fails and never clamps; every parameter
(valid or not) is stored exactly as passed, with `soc = 0.5·capacity` and an
empty record list.  No configuration error exists at construction time. -/
theorem claim_C4_construction_stores_unvalidated
    (c P e dg gf : ℚ) (pvS loadS : Option Series) (bw sw : ℕ × ℕ) :
    (BatterySimulator.init c P e dg gf).1.capacity = c
    ∧ (BatterySimulator.init c P e dg gf).1.max_power = P
    ∧ (BatterySimulator.init c P e dg gf).1.efficiency = e
    ∧ (BatterySimulator.init c P e dg gf).1.degradation_cost = dg
    ∧ (BatterySimulator.init c P e dg gf).1.grid_fee = gf
    ∧ (BatterySimulator.init c P e dg gf).2
        = { soc := (1/2) * c, results := [] }
    ∧ (LPBasedSimulator.init c P e dg gf pvS loadS).params
        = (BatterySimulator.init c P e dg gf).1
    ∧ (LPBasedSimulator.init c P e dg gf pvS loadS).state
        = { soc := (1/2) * c, results := [] }
    ∧ (TimeWindowRuleBasedSimulator.init pvS loadS bw sw c P e dg gf).buy_hours
        = bw
    ∧ (TimeWindowRuleBasedSimulator.init pvS loadS bw sw c P e dg gf).sell_hours
        = sw
    ∧ (TimeWindowRuleBasedSimulator.init pvS loadS bw sw
        c P e dg gf).params.efficiency = e :=
  ⟨rfl, rfl, rfl, rfl, rfl, rfl, rfl, rfl, rfl, rfl, rfl⟩

/-- C6: a non-optimal solver status (`sol = none`) makes `simulate_day` raise
for that day, atomically: the returned error carries exactly the pre-call
state, so `self.soc` and `self.results` are unchanged and no partial-day
record is emitted.  (In the source the `raise` sits before the assignments
to `self.soc` and before any `self.results.append`.) -/
theorem claim_C6_nonoptimal_solver_atomic (p : Params)
    (pvS loadS : Option Series) (st : SimState) (rows : List Row) :
    lpSimulateDay p pvS loadS st rows none = Except.error st := by
  unfold lpSimulateDay
  cases lookupAll pvS rows <;> cases lookupAll loadS rows <;> rfl

/-- C8 is false as stated: `calculate_profit` does not leave its input frame
unmodified.  It assigns the derived financial columns into the argument and
returns that same frame, so after the call the caller's frame differs from
the frame passed in (here: concretely, at a one-row frame). -/
theorem claim_C8_counterexample :
    calculate_profit (9/10) 40 10 0 dfExample ≠ dfExample := by
  intro h
  have h2 := congrArg DataFrame.fin h
  simp [calculate_profit, dfExample] at h2

/-- C8 amended: `calculate_profit` is a deterministic function of its
arguments (it reads no other state), and it preserves every pre-existing
column of the record sequence unchanged; but it augments the frame with the
derived financial columns in place and returns that same frame, so the input
frame is modified rather than left untouched. -/
theorem claim_C8_deterministic_preserves_rows
    (efficiency grid_fee_per_mwh degradation_cost_per_mwh
      pv_setup_cost_eur : ℚ) (df : DataFrame) :
    (calculate_profit efficiency grid_fee_per_mwh degradation_cost_per_mwh
        pv_setup_cost_eur df).rows = df.rows
    ∧ ((calculate_profit efficiency grid_fee_per_mwh degradation_cost_per_mwh
        pv_setup_cost_eur df).fin).isSome = true :=
  ⟨rfl, rfl⟩

/-- C9: soc is `0.5·capacity` at construction; `reset()` restores exactly the
construction state, is idempotent, and re-running any of the three strategies
after `reset()` on the same fixed input reproduces the records of a run from
a fresh construction. -/
theorem claim_C9_reset_roundtrip (p : Params) (st : SimState) (bq sq : ℚ)
    (bw sw : ℕ × ℕ) (pvS loadS : Option Series) (days : List (List Row))
    (lpdays : List (List Row × Option LPSol)) :
    (constructState p).soc = (1/2) * p.capacity
    ∧ resetState p st = constructState p
    ∧ resetState p (resetState p st) = resetState p st
    ∧ thresholdRun p bq sq pvS loadS (resetState p st) days
        = thresholdRun p bq sq pvS loadS (constructState p) days
    ∧ ruleRun p bw sw pvS loadS (resetState p st) days
        = ruleRun p bw sw pvS loadS (constructState p) days
    ∧ lpRun p pvS loadS (resetState p st) lpdays
        = lpRun p pvS loadS (constructState p) lpdays :=
  ⟨rfl, rfl, rfl, rfl, rfl, rfl⟩

/-- C2: with valid construction parameters (capacity > 0, 0 < efficiency ≤ 1,
maxPower ≥ 0, per §3 of the spec) and an incoming soc within `[0, capacity]`
(and every already-recorded soc within bounds), every dispatch record
produced by a quantile-threshold run, a time-window run, or an LP day solved
to feasibility satisfies `0 ≤ soc ≤ capacity`.  The rational model satisfies
the bound exactly, which is stronger than the claimed 1e-6 tolerance. -/
theorem claim_C2_soc_within_capacity
    (p : Params) (bq sq : ℚ) (bw sw : ℕ × ℕ) (pvS loadS : Option Series)
    (st : SimState) (days : List (List Row)) (rows : List Row)
    (sol : LPSol) (pvL loadL : List ℚ)
    (hc : 0 < p.capacity) (he0 : 0 < p.efficiency) (he1 : p.efficiency ≤ 1)
    (hP : 0 ≤ p.max_power) (h0 : 0 ≤ st.soc) (h1 : st.soc ≤ p.capacity)
    (hacc : ∀ r ∈ st.results, 0 ≤ r.soc ∧ r.soc ≤ p.capacity)
    (hpv : lookupAll pvS rows = some pvL)
    (hld : lookupAll loadS rows = some loadL)
    (hfeas : LPFeasible p st.soc (rows.map Row.price) pvL loadL sol) :
    (∀ r ∈ (outState (thresholdRun p bq sq pvS loadS st days)).results,
        0 ≤ r.soc ∧ r.soc ≤ p.capacity)
    ∧ (∀ r ∈ (outState (ruleRun p bw sw pvS loadS st days)).results,
        0 ≤ r.soc ∧ r.soc ≤ p.capacity)
    ∧ (∀ r ∈ (outState (lpSimulateDay p pvS loadS st rows (some sol))).results,
        0 ≤ r.soc ∧ r.soc ≤ p.capacity) := by
  have hdayT : ∀ (st2 : SimState) (d : List Row),
      0 ≤ st2.soc → st2.soc ≤ p.capacity →
      (∀ r ∈ st2.results, 0 ≤ r.soc ∧ r.soc ≤ p.capacity) →
      (∀ r ∈ (outState (thresholdSimDay p bq sq pvS loadS st2 d)).results,
        0 ≤ r.soc ∧ r.soc ≤ p.capacity) ∧
      (∀ st3, thresholdSimDay p bq sq pvS loadS st2 d = Except.ok st3 →
        0 ≤ st3.soc ∧ st3.soc ≤ p.capacity) := by
    intro st2 d h2 h3 hacc2
    rw [thresholdSimDay_eq]
    exact simDayLoop_soc p _ pvS loadS st2.soc he0 he1 hP d st2.soc
      st2.results h2 h3 hacc2
  have hdayR : ∀ (st2 : SimState) (d : List Row),
      0 ≤ st2.soc → st2.soc ≤ p.capacity →
      (∀ r ∈ st2.results, 0 ≤ r.soc ∧ r.soc ≤ p.capacity) →
      (∀ r ∈ (outState (ruleSimDay p bw sw pvS loadS st2 d)).results,
        0 ≤ r.soc ∧ r.soc ≤ p.capacity) ∧
      (∀ st3, ruleSimDay p bw sw pvS loadS st2 d = Except.ok st3 →
        0 ≤ st3.soc ∧ st3.soc ≤ p.capacity) := by
    intro st2 d h2 h3 hacc2
    rw [ruleSimDay_eq]
    exact simDayLoop_soc p _ pvS loadS st2.soc he0 he1 hP d st2.soc
      st2.results h2 h3 hacc2
  refine ⟨?_, ?_, ?_⟩
  · exact runDays_soc p (thresholdSimDay p bq sq pvS loadS) hdayT days st
      h0 h1 hacc
  · exact runDays_soc p (ruleSimDay p bw sw pvS loadS) hdayR days st
      h0 h1 hacc
  · intro r hr
    have hout : outState (lpSimulateDay p pvS loadS st rows (some sol))
        = ⟨sol.soc.getD rows.length 0,
           st.results ++ lpRecords rows (rows.map Row.price) pvL loadL sol⟩ := by
      simp [lpSimulateDay, hpv, hld, outState]
    rw [hout] at hr
    rcases List.mem_append.mp hr with h | h
    · exact hacc r h
    · exact lpRecords_soc p st.soc rows pvL loadL sol hfeas r h

/-- A valid parameter set used by the witnesses. -/
def pExample : Params :=
  { capacity := 1, max_power := 1/2, efficiency := 9/10,
    degradation_cost := 10, grid_fee := 40 }

/-- A one-step day used by the witnesses. -/
def rowsExample : List Row :=
  [{ idx := 0, ts := { day := 0, hour := 12, minute := 0 }, price := 10 }]

/-- An all-zero feasible LP solution for `rowsExample` from soc `1/2`. -/
def solExample : LPSol :=
  { export_pv := [0], charge_from_pv := [0], charge_from_grid := [0],
    discharge := [0], soc := [1/2, 1/2] }

/-- Witness for C2 at a concrete valid configuration, one simulated day per
strategy, and the all-zero feasible LP solution. -/
theorem claim_C2_witness :
    (0 < pExample.capacity ∧ 0 < pExample.efficiency
      ∧ pExample.efficiency ≤ 1 ∧ 0 ≤ pExample.max_power
      ∧ 0 ≤ (SimState.mk (1/2) []).soc
      ∧ (SimState.mk (1/2) []).soc ≤ pExample.capacity
      ∧ lookupAll none rowsExample = some [0]
      ∧ LPFeasible pExample (SimState.mk (1/2) []).soc
          (rowsExample.map Row.price) [0] [0] solExample)
    ∧ ((∀ r ∈ (outState (thresholdRun pExample (1/4) (3/4) none none
          (SimState.mk (1/2) []) [rowsExample])).results,
          0 ≤ r.soc ∧ r.soc ≤ pExample.capacity)
      ∧ (∀ r ∈ (outState (ruleRun pExample (12, 14) (19, 21) none none
          (SimState.mk (1/2) []) [rowsExample])).results,
          0 ≤ r.soc ∧ r.soc ≤ pExample.capacity)
      ∧ (∀ r ∈ (outState (lpSimulateDay pExample none none
          (SimState.mk (1/2) []) rowsExample (some solExample))).results,
          0 ≤ r.soc ∧ r.soc ≤ pExample.capacity)) :=
  ⟨⟨by norm_num [pExample], by norm_num [pExample], by norm_num [pExample],
    by norm_num [pExample], by norm_num, by norm_num [pExample],
    by with_unfolding_all decide, by with_unfolding_all decide⟩,
   claim_C2_soc_within_capacity pExample (1/4) (3/4) (12, 14) (19, 21)
     none none (SimState.mk (1/2) []) [rowsExample] rowsExample solExample
     [0] [0]
     (by norm_num [pExample]) (by norm_num [pExample])
     (by norm_num [pExample]) (by norm_num [pExample]) (by norm_num)
     (by norm_num [pExample]) (by simp)
     (by with_unfolding_all decide) (by with_unfolding_all decide)
     (by with_unfolding_all decide)⟩

/-- Parameters with zero degradation cost, unit efficiency and zero grid fee:
the configuration under which the LP objective no longer penalizes
simultaneous charging and discharging. -/
def pNoLoss : Params :=
  { capacity := 1, max_power := 16, efficiency := 1,
    degradation_cost := 0, grid_fee := 0 }

/-- A one-step day at price 10 for the exclusivity counterexample. -/
def rowsNoLoss : List Row :=
  [{ idx := 0, ts := { day := 0, hour := 0, minute := 0 }, price := 10 }]

/-- An optimal solution of the `pNoLoss` one-step LP from the construction
soc `1/2` that charges 1 MWh from the grid and discharges 3 MWh in the same
step. -/
def solNoLoss : LPSol :=
  { export_pv := [0], charge_from_pv := [0], charge_from_grid := [1],
    discharge := [3], soc := [1/2, 0] }

/-- C3 is false as stated for the LP strategy: under zero degradation cost,
unit efficiency and zero grid fee, `solNoLoss` is feasible and optimal for
the one-step day `rowsNoLoss` from the construction soc `1/2`, so the solver
may return it with status `OPTIMAL`; the dispatch record the strategy then
emits has `charge_mwh = 1` and `discharge_mwh = 3`, both nonzero in one step.
(The power bounds do hold: both are ≤ maxPower·Δt = 4.) -/
theorem claim_C3_counterexample :
    LPOptimalSol pNoLoss (1/2) [10] [0] [0] solNoLoss
    ∧ ((outState (lpSimulateDay pNoLoss none none (SimState.mk (1/2) [])
        rowsNoLoss (some solNoLoss))).results.getD 0 default).charge_mwh = 1
    ∧ ((outState (lpSimulateDay pNoLoss none none (SimState.mk (1/2) [])
        rowsNoLoss (some solNoLoss))).results.getD 0 default).discharge_mwh
      = 3 := by
  refine ⟨⟨by with_unfolding_all decide, ?_⟩,
    by with_unfolding_all decide, by with_unfolding_all decide⟩
  intro s2 hf2
  obtain ⟨-, -, -, -, -, hs0, hall⟩ := hf2
  obtain ⟨he, hcp, hcg, hd, hrec, hpvc, -, -, -, hs1nn, -, -, -⟩ :=
    hall 0 (by norm_num)
  have hobj2 : lpObjective pNoLoss [10] s2
      = s2.discharge.getD 0 0 * 10 + s2.export_pv.getD 0 0 * 10
        - s2.charge_from_grid.getD 0 0 * 10 := by
    simp only [lpObjective, List.length_singleton, Finset.sum_range_one]
    have h1 : pNoLoss.efficiency = 1 := rfl
    have h2 : pNoLoss.grid_fee = 0 := rfl
    have h3 : pNoLoss.degradation_cost = 0 := rfl
    have h4 : ([(10:ℚ)]).getD 0 0 = 10 := rfl
    rw [h1, h2, h3, h4]
    ring
  have hobj1 : lpObjective pNoLoss [10] solNoLoss = 20 := by
    with_unfolding_all decide
  rw [hobj1, hobj2]
  have heff : pNoLoss.efficiency = 1 := rfl
  rw [hs0, heff, div_one, mul_one] at hrec
  simp only [lpCharge] at hrec
  have hz : ([(0:ℚ)]).getD 0 0 = 0 := rfl
  simp only [hz] at hpvc
  rw [show max ((0:ℚ) - 0) 0 = 0 by norm_num] at hpvc
  linarith

/-- C3 corrected: every record of the two heuristic strategies is exclusive
(at most one of charge and discharge is nonzero) and respects both power
bounds `charge_mwh ≤ maxPower·Δt` and `discharge_mwh ≤ maxPower·Δt`
(Δt = 0.25 h); every record of the LP strategy respects both power bounds,
but its mutual exclusivity is not guaranteed (see the counterexample: it can
fail when degradation cost is 0 and efficiency is 1). -/
theorem claim_C3_power_bounds_heuristic_exclusivity
    (p : Params) (bq sq : ℚ) (bw sw : ℕ × ℕ) (pvS loadS : Option Series)
    (st : SimState) (days : List (List Row)) (rows : List Row)
    (sol : LPSol) (pvL loadL : List ℚ)
    (hP : 0 ≤ p.max_power)
    (hacc : ∀ r ∈ st.results,
      (r.charge_mwh = 0 ∨ r.discharge_mwh = 0)
        ∧ r.charge_mwh ≤ p.max_power * (1/4)
        ∧ r.discharge_mwh ≤ p.max_power * (1/4))
    (hpv : lookupAll pvS rows = some pvL)
    (hld : lookupAll loadS rows = some loadL)
    (hfeas : LPFeasible p st.soc (rows.map Row.price) pvL loadL sol) :
    (∀ r ∈ (outState (thresholdRun p bq sq pvS loadS st days)).results,
        (r.charge_mwh = 0 ∨ r.discharge_mwh = 0)
          ∧ r.charge_mwh ≤ p.max_power * (1/4)
          ∧ r.discharge_mwh ≤ p.max_power * (1/4))
    ∧ (∀ r ∈ (outState (ruleRun p bw sw pvS loadS st days)).results,
        (r.charge_mwh = 0 ∨ r.discharge_mwh = 0)
          ∧ r.charge_mwh ≤ p.max_power * (1/4)
          ∧ r.discharge_mwh ≤ p.max_power * (1/4))
    ∧ (∀ r ∈ (outState (lpSimulateDay p pvS loadS st rows (some sol))).results,
        r.charge_mwh ≤ p.max_power * (1/4)
          ∧ r.discharge_mwh ≤ p.max_power * (1/4)) := by
  have hdayT : ∀ (st2 : SimState) (d : List Row),
      (∀ r ∈ st2.results,
        (r.charge_mwh = 0 ∨ r.discharge_mwh = 0)
          ∧ r.charge_mwh ≤ p.max_power * (1/4)
          ∧ r.discharge_mwh ≤ p.max_power * (1/4)) →
      ∀ r ∈ (outState (thresholdSimDay p bq sq pvS loadS st2 d)).results,
        (r.charge_mwh = 0 ∨ r.discharge_mwh = 0)
          ∧ r.charge_mwh ≤ p.max_power * (1/4)
          ∧ r.discharge_mwh ≤ p.max_power * (1/4) := by
    intro st2 d hacc2
    rw [thresholdSimDay_eq]
    exact simDayLoop_Q p _ pvS loadS st2.soc _
      (fun d2 soc ts price pv load =>
        heuristicStep_excl_bounds p d2 soc ts price pv load hP)
      d st2.soc st2.results hacc2
  have hdayR : ∀ (st2 : SimState) (d : List Row),
      (∀ r ∈ st2.results,
        (r.charge_mwh = 0 ∨ r.discharge_mwh = 0)
          ∧ r.charge_mwh ≤ p.max_power * (1/4)
          ∧ r.discharge_mwh ≤ p.max_power * (1/4)) →
      ∀ r ∈ (outState (ruleSimDay p bw sw pvS loadS st2 d)).results,
        (r.charge_mwh = 0 ∨ r.discharge_mwh = 0)
          ∧ r.charge_mwh ≤ p.max_power * (1/4)
          ∧ r.discharge_mwh ≤ p.max_power * (1/4) := by
    intro st2 d hacc2
    rw [ruleSimDay_eq]
    exact simDayLoop_Q p _ pvS loadS st2.soc _
      (fun d2 soc ts price pv load =>
        heuristicStep_excl_bounds p d2 soc ts price pv load hP)
      d st2.soc st2.results hacc2
  refine ⟨?_, ?_, ?_⟩
  · exact runDays_Q (thresholdSimDay p bq sq pvS loadS) _ hdayT days st hacc
  · exact runDays_Q (ruleSimDay p bw sw pvS loadS) _ hdayR days st hacc
  · intro r hr
    have hout : outState (lpSimulateDay p pvS loadS st rows (some sol))
        = ⟨sol.soc.getD rows.length 0,
           st.results ++ lpRecords rows (rows.map Row.price) pvL loadL sol⟩ := by
      simp [lpSimulateDay, hpv, hld, outState]
    rw [hout] at hr
    rcases List.mem_append.mp hr with h | h
    · exact (hacc r h).2
    · exact lpRecords_power p st.soc rows pvL loadL sol hfeas r h

/-- Witness for the corrected C3 at a concrete valid configuration. -/
theorem claim_C3_witness :
    (0 ≤ pExample.max_power
      ∧ lookupAll none rowsExample = some [0]
      ∧ LPFeasible pExample (SimState.mk (1/2) []).soc
          (rowsExample.map Row.price) [0] [0] solExample)
    ∧ ((∀ r ∈ (outState (thresholdRun pExample (1/4) (3/4) none none
          (SimState.mk (1/2) []) [rowsExample])).results,
          (r.charge_mwh = 0 ∨ r.discharge_mwh = 0)
            ∧ r.charge_mwh ≤ pExample.max_power * (1/4)
            ∧ r.discharge_mwh ≤ pExample.max_power * (1/4))
      ∧ (∀ r ∈ (outState (ruleRun pExample (12, 14) (19, 21) none none
          (SimState.mk (1/2) []) [rowsExample])).results,
          (r.charge_mwh = 0 ∨ r.discharge_mwh = 0)
            ∧ r.charge_mwh ≤ pExample.max_power * (1/4)
            ∧ r.discharge_mwh ≤ pExample.max_power * (1/4))
      ∧ (∀ r ∈ (outState (lpSimulateDay pExample none none
          (SimState.mk (1/2) []) rowsExample (some solExample))).results,
          r.charge_mwh ≤ pExample.max_power * (1/4)
            ∧ r.discharge_mwh ≤ pExample.max_power * (1/4))) :=
  ⟨⟨by norm_num [pExample], by with_unfolding_all decide,
    by with_unfolding_all decide⟩,
   claim_C3_power_bounds_heuristic_exclusivity pExample (1/4) (3/4)
     (12, 14) (19, 21) none none (SimState.mk (1/2) []) [rowsExample]
     rowsExample solExample [0] [0]
     (by norm_num [pExample]) (by simp)
     (by with_unfolding_all decide) (by with_unfolding_all decide)
     (by with_unfolding_all decide)⟩

/-- Scenario A's 4-step day: prices `[10, 10, 100, 100]` at 15-minute
cadence. -/
def rowsScenarioA : List Row :=
  [ { idx := 0, ts := { day := 0, hour := 0, minute := 0 }, price := 10 },
    { idx := 1, ts := { day := 0, hour := 0, minute := 15 }, price := 10 },
    { idx := 2, ts := { day := 0, hour := 0, minute := 30 }, price := 100 },
    { idx := 3, ts := { day := 0, hour := 0, minute := 45 }, price := 100 } ]

/-- C5 is false as stated: with buy quantile `0.25` and sell quantile `0.75`
on prices `[10, 10, 100, 100]` (capacity 1, maxPower 0.5, efficiency 0.9 —
`pExample`), the simulation does not charge at the first 10-euro step and
does not discharge at the first 100-euro step: both records are idle with
zero energy moved. -/
theorem claim_C5_counterexample :
    ((outState (thresholdSimDay pExample (1/4) (3/4) none none
        (SimState.mk (1/2) []) rowsScenarioA)).results.getD 0
        default).action = "idle"
    ∧ ((outState (thresholdSimDay pExample (1/4) (3/4) none none
        (SimState.mk (1/2) []) rowsScenarioA)).results.getD 0
        default).charge_mwh = 0
    ∧ ((outState (thresholdSimDay pExample (1/4) (3/4) none none
        (SimState.mk (1/2) []) rowsScenarioA)).results.getD 2
        default).action = "idle"
    ∧ ((outState (thresholdSimDay pExample (1/4) (3/4) none none
        (SimState.mk (1/2) []) rowsScenarioA)).results.getD 2
        default).discharge_mwh = 0 := by
  with_unfolding_all decide

/-- C5 corrected: on Scenario A the 0.25-quantile of `[10, 10, 100, 100]`
is exactly 10 (the minimum price) and the 0.75-quantile is exactly 100 (the
maximum), and since the code charges only on `price < buy_threshold` and
discharges only on `price > sell_threshold` (both strict), all four steps
stay idle: no charge, no discharge, soc stays at 0.5 MWh. -/
theorem claim_C5_scenario_a_all_idle :
    quantileLinear (1/4) (rowsScenarioA.map Row.price) = 10
    ∧ quantileLinear (3/4) (rowsScenarioA.map Row.price) = 100
    ∧ isError (thresholdSimDay pExample (1/4) (3/4) none none
        (SimState.mk (1/2) []) rowsScenarioA) = false
    ∧ (outState (thresholdSimDay pExample (1/4) (3/4) none none
        (SimState.mk (1/2) []) rowsScenarioA)).results.map
        (fun r => r.action) = ["idle", "idle", "idle", "idle"]
    ∧ (outState (thresholdSimDay pExample (1/4) (3/4) none none
        (SimState.mk (1/2) []) rowsScenarioA)).results.map
        (fun r => r.charge_mwh) = [0, 0, 0, 0]
    ∧ (outState (thresholdSimDay pExample (1/4) (3/4) none none
        (SimState.mk (1/2) []) rowsScenarioA)).results.map
        (fun r => r.discharge_mwh) = [0, 0, 0, 0]
    ∧ (outState (thresholdSimDay pExample (1/4) (3/4) none none
        (SimState.mk (1/2) []) rowsScenarioA)).soc = 1/2 := by
  with_unfolding_all decide

/-- A PV series whose key 1 is missing (KeyError at the day's second step). -/
def seriesMissingSecond : Option Series :=
  some (fun i => if i = 0 then some 0 else none)

/-- A PV series with every key missing. -/
def seriesAllMissing : Option Series := some (fun _ => none)

/-- A two-step day at constant price 5. -/
def rowsTwoStep : List Row :=
  [ { idx := 0, ts := { day := 0, hour := 0, minute := 0 }, price := 5 },
    { idx := 1, ts := { day := 0, hour := 0, minute := 15 }, price := 5 } ]

/-- C7 is false as stated for the heuristic strategies: with a PV series
missing the second step's timestamp, the threshold simulator's day fails,
but the record of the first step has already been appended to
`self.results` — a partial-day result is emitted. -/
theorem claim_C7_counterexample :
    isError (thresholdSimDay pExample (1/2) (1/2) seriesMissingSecond none
      (SimState.mk (1/2) []) rowsTwoStep) = true
    ∧ (outState (thresholdSimDay pExample (1/2) (1/2) seriesMissingSecond
        none (SimState.mk (1/2) []) rowsTwoStep)).results.length = 1 := by
  with_unfolding_all decide

/-- C7 corrected: a missing PV/load timestamp makes the day fail for every
strategy, but the cleanup differs.  The LP strategy looks all labels up
before solving, so it raises with the state exactly unchanged (no record of
the day is appended).  The heuristic strategies raise mid-loop: `self.soc`
is unchanged (it is only assigned after a full day), but the records of the
steps before the missing timestamp remain appended, so a partial-day result
can be emitted (see the counterexample). -/
theorem claim_C7_missing_timestamp_behavior (p : Params) (bq sq : ℚ)
    (bw sw : ℕ × ℕ) (pvS loadS : Option Series) (st : SimState)
    (rows : List Row) (sol : Option LPSol) :
    (lookupAll pvS rows = none →
      lpSimulateDay p pvS loadS st rows sol = Except.error st)
    ∧ (lookupAll loadS rows = none →
      lpSimulateDay p pvS loadS st rows sol = Except.error st)
    ∧ (isError (thresholdSimDay p bq sq pvS loadS st rows) = true →
        (outState (thresholdSimDay p bq sq pvS loadS st rows)).soc = st.soc
        ∧ ∃ l, (outState (thresholdSimDay p bq sq pvS loadS st
            rows)).results = st.results ++ l)
    ∧ (isError (ruleSimDay p bw sw pvS loadS st rows) = true →
        (outState (ruleSimDay p bw sw pvS loadS st rows)).soc = st.soc
        ∧ ∃ l, (outState (ruleSimDay p bw sw pvS loadS st rows)).results
            = st.results ++ l) := by
  refine ⟨?_, ?_, ?_, ?_⟩
  · intro h
    cases h2 : lookupAll loadS rows <;> simp [lpSimulateDay, h, h2]
  · intro h
    cases h2 : lookupAll pvS rows <;> simp [lpSimulateDay, h, h2]
  · intro herr
    rcases hres : thresholdSimDay p bq sq pvS loadS st rows with e | st2
    · rw [thresholdSimDay_eq] at hres
      obtain ⟨hsoc, l, hl⟩ := simDayLoop_error p _ pvS loadS st.soc rows
        st.soc st.results e hres
      exact ⟨hsoc, l, hl⟩
    · rw [hres] at herr
      simp [isError] at herr
  · intro herr
    rcases hres : ruleSimDay p bw sw pvS loadS st rows with e | st2
    · rw [ruleSimDay_eq] at hres
      obtain ⟨hsoc, l, hl⟩ := simDayLoop_error p _ pvS loadS st.soc rows
        st.soc st.results e hres
      exact ⟨hsoc, l, hl⟩
    · rw [hres] at herr
      simp [isError] at herr

/-- Witness for the corrected C7: the LP day with an all-missing PV series
raises with the state unchanged, and the threshold day with the second key
missing keeps soc and extends the record list. -/
theorem claim_C7_witness :
    (lookupAll seriesAllMissing rowsTwoStep = none
      ∧ lpSimulateDay pExample seriesAllMissing none (SimState.mk (1/2) [])
          rowsTwoStep none = Except.error (SimState.mk (1/2) [])
      ∧ isError (thresholdSimDay pExample (1/2) (1/2) seriesMissingSecond
          none (SimState.mk (1/2) []) rowsTwoStep) = true)
    ∧ ((outState (thresholdSimDay pExample (1/2) (1/2) seriesMissingSecond
          none (SimState.mk (1/2) []) rowsTwoStep)).soc
        = (SimState.mk (1/2) []).soc
      ∧ ∃ l, (outState (thresholdSimDay pExample (1/2) (1/2)
          seriesMissingSecond none (SimState.mk (1/2) []) rowsTwoStep)).results
          = (SimState.mk (1/2) []).results ++ l) :=
  ⟨⟨by with_unfolding_all decide,
    (claim_C7_missing_timestamp_behavior pExample (1/2) (1/2) (12, 14)
      (19, 21) seriesAllMissing none (SimState.mk (1/2) []) rowsTwoStep
      none).1 (by with_unfolding_all decide),
    by with_unfolding_all decide⟩,
   (claim_C7_missing_timestamp_behavior pExample (1/2) (1/2) (12, 14)
      (19, 21) seriesMissingSecond none (SimState.mk (1/2) []) rowsTwoStep
      none).2.2.1 (by with_unfolding_all decide)⟩

/-- The record list a day-call of the LP strategy leaves behind: unchanged
on any failure, extended by the post-solve records on success. -/
lemma lpSimulateDay_results (p : Params) (pvS loadS : Option Series)
    (st : SimState) (rows : List Row) (sol : Option LPSol) :
    (outState (lpSimulateDay p pvS loadS st rows sol)).results = st.results
    ∨ ∃ pvL loadL s, lookupAll pvS rows = some pvL
        ∧ lookupAll loadS rows = some loadL ∧ sol = some s
        ∧ (outState (lpSimulateDay p pvS loadS st rows sol)).results
          = st.results ++ lpRecords rows (rows.map Row.price) pvL loadL s := by
  rcases h1 : lookupAll pvS rows with _ | pvL
  · left
    cases h2 : lookupAll loadS rows <;> simp [lpSimulateDay, h1, h2, outState]
  · rcases h2 : lookupAll loadS rows with _ | loadL
    · left; simp [lpSimulateDay, h1, h2, outState]
    · rcases sol with _ | s
      · left; simp [lpSimulateDay, h1, h2, outState]
      · right
        exact ⟨pvL, loadL, s, rfl, rfl, rfl, by
          simp [lpSimulateDay, h1, h2, outState]⟩

/-- C10: in every dispatch record of every strategy the energy flows
decompose consistently: `from_pv_mwh + from_grid_mwh = charge_mwh` and
`to_load_mwh + to_grid_mwh = discharge_mwh` (given the same decomposition
for any records already accumulated). -/
theorem claim_C10_flow_decomposition
    (p : Params) (bq sq : ℚ) (bw sw : ℕ × ℕ) (pvS loadS : Option Series)
    (st : SimState) (days : List (List Row)) (rows : List Row)
    (sol : Option LPSol)
    (hacc : ∀ r ∈ st.results,
      r.from_pv_mwh + r.from_grid_mwh = r.charge_mwh
        ∧ r.to_load_mwh + r.to_grid_mwh = r.discharge_mwh) :
    (∀ r ∈ (outState (thresholdRun p bq sq pvS loadS st days)).results,
        r.from_pv_mwh + r.from_grid_mwh = r.charge_mwh
          ∧ r.to_load_mwh + r.to_grid_mwh = r.discharge_mwh)
    ∧ (∀ r ∈ (outState (ruleRun p bw sw pvS loadS st days)).results,
        r.from_pv_mwh + r.from_grid_mwh = r.charge_mwh
          ∧ r.to_load_mwh + r.to_grid_mwh = r.discharge_mwh)
    ∧ (∀ r ∈ (outState (lpSimulateDay p pvS loadS st rows sol)).results,
        r.from_pv_mwh + r.from_grid_mwh = r.charge_mwh
          ∧ r.to_load_mwh + r.to_grid_mwh = r.discharge_mwh) := by
  have hdayT : ∀ (st2 : SimState) (d : List Row),
      (∀ r ∈ st2.results,
        r.from_pv_mwh + r.from_grid_mwh = r.charge_mwh
          ∧ r.to_load_mwh + r.to_grid_mwh = r.discharge_mwh) →
      ∀ r ∈ (outState (thresholdSimDay p bq sq pvS loadS st2 d)).results,
        r.from_pv_mwh + r.from_grid_mwh = r.charge_mwh
          ∧ r.to_load_mwh + r.to_grid_mwh = r.discharge_mwh := by
    intro st2 d hacc2
    rw [thresholdSimDay_eq]
    exact simDayLoop_Q p _ pvS loadS st2.soc _
      (fun d2 soc ts price pv load =>
        heuristicStep_decomp p d2 soc ts price pv load)
      d st2.soc st2.results hacc2
  have hdayR : ∀ (st2 : SimState) (d : List Row),
      (∀ r ∈ st2.results,
        r.from_pv_mwh + r.from_grid_mwh = r.charge_mwh
          ∧ r.to_load_mwh + r.to_grid_mwh = r.discharge_mwh) →
      ∀ r ∈ (outState (ruleSimDay p bw sw pvS loadS st2 d)).results,
        r.from_pv_mwh + r.from_grid_mwh = r.charge_mwh
          ∧ r.to_load_mwh + r.to_grid_mwh = r.discharge_mwh := by
    intro st2 d hacc2
    rw [ruleSimDay_eq]
    exact simDayLoop_Q p _ pvS loadS st2.soc _
      (fun d2 soc ts price pv load =>
        heuristicStep_decomp p d2 soc ts price pv load)
      d st2.soc st2.results hacc2
  refine ⟨?_, ?_, ?_⟩
  · exact runDays_Q (thresholdSimDay p bq sq pvS loadS) _ hdayT days st hacc
  · exact runDays_Q (ruleSimDay p bw sw pvS loadS) _ hdayR days st hacc
  · intro r hr
    rcases lpSimulateDay_results p pvS loadS st rows sol with h | h
    · rw [h] at hr
      exact hacc r hr
    · obtain ⟨pvL, loadL, s, -, -, -, hres⟩ := h
      rw [hres] at hr
      rcases List.mem_append.mp hr with h2 | h2
      · exact hacc r h2
      · exact lpRecords_decomp rows (rows.map Row.price) pvL loadL s r h2

/-- Witness for C10 at a concrete one-day run of each strategy. -/
theorem claim_C10_witness :
    (∀ r ∈ (SimState.mk (1/2) ([] : List DispatchRecord)).results,
      r.from_pv_mwh + r.from_grid_mwh = r.charge_mwh
        ∧ r.to_load_mwh + r.to_grid_mwh = r.discharge_mwh)
    ∧ ((∀ r ∈ (outState (thresholdRun pExample (1/4) (3/4) none none
          (SimState.mk (1/2) []) [rowsExample])).results,
          r.from_pv_mwh + r.from_grid_mwh = r.charge_mwh
            ∧ r.to_load_mwh + r.to_grid_mwh = r.discharge_mwh)
      ∧ (∀ r ∈ (outState (ruleRun pExample (12, 14) (19, 21) none none
          (SimState.mk (1/2) []) [rowsExample])).results,
          r.from_pv_mwh + r.from_grid_mwh = r.charge_mwh
            ∧ r.to_load_mwh + r.to_grid_mwh = r.discharge_mwh)
      ∧ (∀ r ∈ (outState (lpSimulateDay pExample none none
          (SimState.mk (1/2) []) rowsExample (some solExample))).results,
          r.from_pv_mwh + r.from_grid_mwh = r.charge_mwh
            ∧ r.to_load_mwh + r.to_grid_mwh = r.discharge_mwh)) :=
  ⟨by simp,
   claim_C10_flow_decomposition pExample (1/4) (3/4) (12, 14) (19, 21)
     none none (SimState.mk (1/2) []) [rowsExample] rowsExample
     (some solExample) (by simp)⟩

end Battery
